import Mathlib

/-
Verification development for the manga colorization service.

The visible sources ship the React Native screens; the core pipeline
(Job Orchestrator, Inference Client, Record Store, History Service)
lives in a backend module that is not part of the visible sources, so
those components are modelled from the specification.  The history
screen state logic is embedded directly from
frontend/app/(tabs)/history.tsx.
-/

namespace Manga

/-- Status of a colorization job: pending, succeeded or failed. -/
inductive JobStatus
  | pending
  | succeeded
  | failed
deriving DecidableEq, Repr

/-- Error taxonomy of the Inference Client. -/
inductive InferError
  | ModelUnavailable
  | UpstreamTimeout
  | UpstreamError
deriving DecidableEq, Repr

/-- Modelled from the spec: the ColorizationJob entity of section 3; the
backend record type is not in the visible sources.  Image references are
stored as raw byte payloads. -/
structure ColorizationJob where
  id : String
  owner_id : String
  original_image : List Nat
  colorized_image : Option (List Nat)
  model_id : String
  status : JobStatus
  created_at : Nat
  error_detail : Option String
deriving DecidableEq, Repr

/-- Modelled from the spec: one response of the external inference
endpoint for a given model and attempt number. -/
inductive UpstreamOutcome
  | ok (bytes : List Nat)
  | modelUnavailable
  | timeout
  | upstreamFailure
deriving DecidableEq, Repr

/-- Modelled from the spec: the immutable process configuration together
with the external world read by the backend (inference endpoint per model
and attempt, default model, fresh record id, clock); the backend module
holding these is not in the visible sources. -/
structure Env where
  upstream : List Nat → String → Nat → UpstreamOutcome
  defaultModel : String
  freshId : String
  now : Nat

/-- Modelled from the spec, section 4.1: human-readable reason attached
to each Inference Client error kind. -/
def errorDetail : InferError → String
  | InferError.ModelUnavailable => "model does not support this operation"
  | InferError.UpstreamTimeout => "inference request timed out"
  | InferError.UpstreamError => "inference service error"

/-- Modelled from the spec, section 4.1: the Inference Client performs
one attempt against the upstream endpoint, with a single bounded retry
after a transient network failure (a timeout), and never a retry after
ModelUnavailable, which is permanent for the model.  Returns the mapped
result together with the number of upstream attempts made.  The backend
client is not in the visible sources. -/
def colorize (env : Env) (image : List Nat) (model_id : String) :
    Except InferError (List Nat) × Nat :=
  match env.upstream image model_id 0 with
  | UpstreamOutcome.ok bytes => (Except.ok bytes, 1)
  | UpstreamOutcome.modelUnavailable => (Except.error InferError.ModelUnavailable, 1)
  | UpstreamOutcome.upstreamFailure => (Except.error InferError.UpstreamError, 1)
  | UpstreamOutcome.timeout =>
    match env.upstream image model_id 1 with
    | UpstreamOutcome.ok bytes => (Except.ok bytes, 2)
    | UpstreamOutcome.modelUnavailable => (Except.error InferError.ModelUnavailable, 2)
    | UpstreamOutcome.upstreamFailure => (Except.error InferError.UpstreamError, 2)
    | UpstreamOutcome.timeout => (Except.error InferError.UpstreamTimeout, 2)

/-- Modelled from the spec, section 4.3: the Record Store is the list of
persisted records, newest first; the backend store is not in the visible
sources. -/
structure Store where
  records : List ColorizationJob
deriving DecidableEq, Repr

/-- The empty Record Store. -/
def Store.empty : Store := ⟨[]⟩

/-- Modelled from the spec: create persists one complete record; the new
record sits at the front, keeping the list in created_at-descending
order. -/
def Store.create (s : Store) (j : ColorizationJob) : Store :=
  ⟨j :: s.records⟩

/-- Modelled from the spec: list_by_owner returns the records of one
owner, newest first, and the empty sequence when the owner has none. -/
def Store.listByOwner (s : Store) (owner : String) : List ColorizationJob :=
  s.records.filter (fun r => r.owner_id == owner)

/-- Modelled from the spec: get by id; none plays the role of NotFound. -/
def Store.getRecord (s : Store) (i : String) : Option ColorizationJob :=
  s.records.find? (fun r => r.id == i)

/-- Modelled from the spec: delete by id, unconditional on ownership;
none plays the role of NotFound. -/
def Store.deleteRecord (s : Store) (i : String) : Option Store :=
  if s.records.any (fun r => r.id == i) then
    some ⟨s.records.filter (fun r => r.id != i)⟩
  else
    none

/-- Outcome of one submit call: rejected input, a succeeded record, or a
failed record carrying the Inference Client error kind. -/
inductive SubmitResult
  | invalidInput
  | ok (j : ColorizationJob)
  | failed (j : ColorizationJob) (e : InferError)
deriving DecidableEq, Repr

/-- Modelled from the spec, section 4.2: the Job Orchestrator validates
that the payload is present and non-empty, drives the Inference Client
once, builds a terminal record, persists it via the Record Store, and
returns it; failures become persisted failed records, never exceptions.
The backend orchestrator is not in the visible sources. -/
def submit (env : Env) (s : Store) (owner : String)
    (payload : Option (List Nat)) (model? : Option String) :
    SubmitResult × Store :=
  match payload with
  | none => (SubmitResult.invalidInput, s)
  | some [] => (SubmitResult.invalidInput, s)
  | some image =>
    let mid := model?.getD env.defaultModel
    match (colorize env image mid).1 with
    | Except.ok bytes =>
      let j : ColorizationJob :=
        { id := env.freshId, owner_id := owner, original_image := image,
          colorized_image := some bytes, model_id := mid,
          status := JobStatus.succeeded, created_at := env.now,
          error_detail := none }
      (SubmitResult.ok j, s.create j)
    | Except.error e =>
      let j : ColorizationJob :=
        { id := env.freshId, owner_id := owner, original_image := image,
          colorized_image := none, model_id := mid,
          status := JobStatus.failed, created_at := env.now,
          error_detail := some (errorDetail e) }
      (SubmitResult.failed j e, s.create j)

/-- An HTTP response: numeric status and a flat list of body fields. -/
structure HttpResponse where
  status : Nat
  body : List (String × String)
deriving DecidableEq, Repr

/-- Byte payloads rendered into a response body field. -/
def encodeBytes (bs : List Nat) : String :=
  String.intercalate "," (bs.map toString)

/-- Modelled from the spec, sections 6 and 7: the non-2xx status chosen
for each Inference Client error kind. -/
def httpStatusOfError : InferError → Nat
  | InferError.ModelUnavailable => 404
  | InferError.UpstreamTimeout => 504
  | InferError.UpstreamError => 502

/-- The multipart body of POST /colorize: file bytes, user_id, and an
optional model_id. -/
structure ColorizeRequest where
  file : Option (List Nat)
  user_id : String
  model_id : Option String

/-- Modelled from the spec, section 6: the POST /colorize handler; on
success a 200 with exactly the fields colorized_image, original_image,
id and created_at, on failure a non-2xx status with a detail field
derived from the error kind.  The backend HTTP layer is not in the
visible sources. -/
def postColorize (env : Env) (s : Store) (req : ColorizeRequest) :
    HttpResponse × Store :=
  match submit env s req.user_id req.file req.model_id with
  | (SubmitResult.invalidInput, s2) =>
    ({ status := 400, body := [("detail", "image payload missing or empty")] }, s2)
  | (SubmitResult.ok j, s2) =>
    ({ status := 200,
       body := [("colorized_image", encodeBytes (j.colorized_image.getD [])),
                ("original_image", encodeBytes j.original_image),
                ("id", j.id),
                ("created_at", toString j.created_at)] }, s2)
  | (SubmitResult.failed _ e, s2) =>
    ({ status := httpStatusOfError e, body := [("detail", errorDetail e)] }, s2)

/-- Modelled from the spec, section 6: the DELETE /colorizations/id
handler; 200 on success, 404 with detail "not found" when the id does
not exist.  The backend HTTP layer is not in the visible sources. -/
def httpDelete (s : Store) (i : String) : HttpResponse × Store :=
  match s.deleteRecord i with
  | some s2 => ({ status := 200, body := [] }, s2)
  | none => ({ status := 404, body := [("detail", "not found")] }, s)

/-- Modelled from the spec: the operations that mutate the Record
Store. -/
inductive Op
  | submitOp (env : Env) (owner : String) (payload : Option (List Nat))
      (model? : Option String)
  | deleteOp (i : String)

/-- Apply one mutating operation to the store. -/
def applyOp (s : Store) : Op → Store
  | Op.submitOp env owner payload model? => (submit env s owner payload model?).2
  | Op.deleteOp i =>
    match s.deleteRecord i with
    | some s2 => s2
    | none => s

/-- Run a sequence of mutating operations. -/
def runOps (s : Store) : List Op → Store
  | [] => s
  | op :: rest => runOps (applyOp s op) rest

/-- The persisted-record invariant of section 3: colorized_image present
exactly when succeeded, never pending, error_detail only when failed. -/
def RecordWf (j : ColorizationJob) : Prop :=
  (j.colorized_image.isSome ↔ j.status = JobStatus.succeeded) ∧
  j.status ≠ JobStatus.pending ∧
  (j.error_detail.isSome → j.status = JobStatus.failed)

instance (j : ColorizationJob) : Decidable (RecordWf j) := by
  unfold RecordWf; infer_instance

/-- The Colorization interface of frontend/app/(tabs)/history.tsx,
lines 19 to 25. -/
structure Colorization where
  id : String
  original_image : String
  colorized_image : String
  model_id : String
  created_at : String
deriving DecidableEq, Repr

/-- The state update performed by deleteItem in
frontend/app/(tabs)/history.tsx: when the HTTP DELETE resolves, the list
is replaced by prev.filter keeping items whose id differs; when it
rejects, only an alert is shown and the list is untouched. -/
def deleteItemState (prev : List Colorization) (i : String)
    (requestSucceeded : Bool) : List Colorization :=
  if requestSucceeded then prev.filter (fun item => item.id != i) else prev

/-- A concrete environment whose inference endpoint always succeeds. -/
def demoEnv : Env where
  upstream := fun _ _ _ => UpstreamOutcome.ok [7]
  defaultModel := "piddnad/DDColor"
  freshId := "job-1"
  now := 5

/-- A concrete environment whose inference endpoint always reports that
the model is unavailable. -/
def demoEnvDown : Env where
  upstream := fun _ _ _ => UpstreamOutcome.modelUnavailable
  defaultModel := "piddnad/DDColor"
  freshId := "job-2"
  now := 6

/-- The record produced by a successful submit under demoEnv. -/
def demoJob : ColorizationJob where
  id := "job-1"
  owner_id := "u1"
  original_image := [1, 2]
  colorized_image := some [7]
  model_id := "piddnad/DDColor"
  status := JobStatus.succeeded
  created_at := 5
  error_detail := none

/-- A concrete store holding exactly demoJob. -/
def demoStore : Store := ⟨[demoJob]⟩

/-- C1: for a present, non-empty image payload and a model for which the
Inference Client reports success, submit returns a record with
status succeeded and both image references populated, and persists that
record via the Record Store. -/
theorem submit_success_record (env : Env) (s : Store) (owner : String)
    (image : List Nat) (model? : Option String) (bytes : List Nat)
    (himg : image ≠ [])
    (hok : (colorize env image (model?.getD env.defaultModel)).1 = Except.ok bytes) :
    ∃ j s2,
      submit env s owner (some image) model? = (SubmitResult.ok j, s2) ∧
      j.status = JobStatus.succeeded ∧
      j.colorized_image = some bytes ∧
      j.original_image = image ∧
      s2 = s.create j ∧ j ∈ s2.records := by
  cases image with
  | nil => exact absurd rfl himg
  | cons a l =>
    refine ⟨{ id := env.freshId, owner_id := owner, original_image := a :: l,
              colorized_image := some bytes,
              model_id := model?.getD env.defaultModel,
              status := JobStatus.succeeded, created_at := env.now,
              error_detail := none },
            _, ?_, rfl, rfl, rfl, rfl, ?_⟩
    · simp only [submit, hok]
    · simp [Store.create]

theorem submit_success_record_witness :
    ∃ j s2,
      submit demoEnv Store.empty "u1" (some [1, 2]) none = (SubmitResult.ok j, s2) ∧
      j.status = JobStatus.succeeded ∧
      j.colorized_image = some [7] ∧
      j.original_image = [1, 2] ∧
      s2 = Store.empty.create j ∧ j ∈ s2.records :=
  submit_success_record demoEnv Store.empty "u1" [1, 2] none [7] (by decide) (by rfl)

/-- Core lemma: a reported Inference Client failure on a non-empty
payload yields a persisted failed record carrying the error detail. -/
theorem submit_failure_aux (env : Env) (s : Store) (owner : String)
    (image : List Nat) (model? : Option String) (e : InferError)
    (himg : image ≠ [])
    (herr : (colorize env image (model?.getD env.defaultModel)).1 = Except.error e) :
    ∃ j s2,
      submit env s owner (some image) model? = (SubmitResult.failed j e, s2) ∧
      j.status = JobStatus.failed ∧
      j.error_detail = some (errorDetail e) ∧
      j.colorized_image = none ∧
      s2 = s.create j ∧ j ∈ s2.records := by
  cases image with
  | nil => exact absurd rfl himg
  | cons a l =>
    refine ⟨{ id := env.freshId, owner_id := owner, original_image := a :: l,
              colorized_image := none,
              model_id := model?.getD env.defaultModel,
              status := JobStatus.failed, created_at := env.now,
              error_detail := some (errorDetail e) },
            _, ?_, rfl, rfl, rfl, rfl, ?_⟩
    · simp only [submit, herr]
    · simp [Store.create]

/-- C2: when the Inference Client reports a failure, submit does not
propagate an exception: it returns a record with status failed and
error_detail populated from the error kind, and persists that record via
the Record Store. -/
theorem submit_failure_record (env : Env) (s : Store) (owner : String)
    (image : List Nat) (model? : Option String) (e : InferError)
    (himg : image ≠ [])
    (herr : (colorize env image (model?.getD env.defaultModel)).1 = Except.error e) :
    ∃ j s2,
      submit env s owner (some image) model? = (SubmitResult.failed j e, s2) ∧
      j.status = JobStatus.failed ∧
      j.error_detail = some (errorDetail e) ∧
      j.colorized_image = none ∧
      s2 = s.create j ∧ j ∈ s2.records :=
  submit_failure_aux env s owner image model? e himg herr

theorem submit_failure_record_witness :
    ∃ j s2,
      submit demoEnvDown Store.empty "u1" (some [3]) none =
        (SubmitResult.failed j InferError.ModelUnavailable, s2) ∧
      j.status = JobStatus.failed ∧
      j.error_detail = some (errorDetail InferError.ModelUnavailable) ∧
      j.colorized_image = none ∧
      s2 = Store.empty.create j ∧ j ∈ s2.records :=
  submit_failure_record demoEnvDown Store.empty "u1" [3] none
    InferError.ModelUnavailable (by decide) (by rfl)

/-- C4: when the image payload is absent or empty, submit rejects with
InvalidInput and the store is unchanged, so no record is created. -/
theorem submit_invalid_input (env : Env) (s : Store) (owner : String)
    (payload : Option (List Nat)) (model? : Option String)
    (h : payload = none ∨ payload = some []) :
    submit env s owner payload model? = (SubmitResult.invalidInput, s) := by
  rcases h with h | h <;> subst h <;> rfl

theorem submit_invalid_input_witness :
    submit demoEnv Store.empty "u1" none none =
      (SubmitResult.invalidInput, Store.empty) :=
  submit_invalid_input demoEnv Store.empty "u1" none none (Or.inl rfl)

/-- Every record of a store reached by one mutating operation from a
store of well-formed records is itself well-formed. -/
theorem applyOp_wf (s : Store) (op : Op)
    (h : ∀ r ∈ s.records, RecordWf r) :
    ∀ r ∈ (applyOp s op).records, RecordWf r := by
  cases op with
  | deleteOp i =>
    intro r hr
    simp only [applyOp, Store.deleteRecord] at hr
    by_cases hany : s.records.any (fun r => r.id == i) = true
    · simp only [hany, if_pos] at hr
      exact h r (List.mem_of_mem_filter hr)
    · simp only [Bool.not_eq_true] at hany
      simp only [hany, Bool.false_eq_true, if_neg, not_false_iff] at hr
      exact h r hr
  | submitOp env owner payload model? =>
    cases payload with
    | none => simpa [applyOp, submit] using h
    | some image =>
      cases image with
      | nil => simpa [applyOp, submit] using h
      | cons a l =>
        intro r hr
        simp only [applyOp, submit] at hr
        rcases hcol : (colorize env (a :: l) (model?.getD env.defaultModel)).1 with e | bytes
        · rw [hcol] at hr
          simp only [Store.create, List.mem_cons] at hr
          rcases hr with hr | hr
          · subst hr
            exact ⟨by simp, by simp, by simp⟩
          · exact h r hr
        · rw [hcol] at hr
          simp only [Store.create, List.mem_cons] at hr
          rcases hr with hr | hr
          · subst hr
            exact ⟨by simp, by simp, by simp⟩
          · exact h r hr

/-- Well-formedness of all records is preserved by any sequence of
mutating operations. -/
theorem runOps_wf (ops : List Op) (s : Store)
    (h : ∀ r ∈ s.records, RecordWf r) :
    ∀ r ∈ (runOps s ops).records, RecordWf r := by
  induction ops generalizing s with
  | nil => exact h
  | cons op rest ih => exact ih (applyOp s op) (applyOp_wf s op h)

/-- C3: every record persisted in the Record Store by any sequence of
operations satisfies the invariant: colorized_image is present if and
only if status is succeeded, status is terminal (never pending), and
error_detail is present only when status is failed; every create writes
such a complete record. -/
theorem store_records_invariant (ops : List Op) (j : ColorizationJob)
    (hmem : j ∈ (runOps Store.empty ops).records) : RecordWf j :=
  runOps_wf ops Store.empty (by intro r hr; cases hr) j hmem

theorem store_records_invariant_witness : RecordWf demoJob :=
  store_records_invariant [Op.submitOp demoEnv "u1" (some [1, 2]) none]
    demoJob (by decide)

/-- C5: POST /colorize takes a multipart body of file, user_id and an
optional model_id; on success it returns 200 with a body holding exactly
the fields colorized_image, original_image, id and created_at; on any
failure it returns a non-2xx status with a single detail field derived
from the error kind. -/
theorem http_colorize_contract (env : Env) (s : Store) (req : ColorizeRequest) :
    (∀ s2, submit env s req.user_id req.file req.model_id =
        (SubmitResult.invalidInput, s2) →
      (postColorize env s req).1.status = 400 ∧
      (postColorize env s req).1.body =
        [("detail", "image payload missing or empty")]) ∧
    (∀ j s2, submit env s req.user_id req.file req.model_id =
        (SubmitResult.ok j, s2) →
      postColorize env s req =
        ({ status := 200,
           body := [("colorized_image", encodeBytes (j.colorized_image.getD [])),
                    ("original_image", encodeBytes j.original_image),
                    ("id", j.id),
                    ("created_at", toString j.created_at)] }, s2)) ∧
    (∀ j e s2, submit env s req.user_id req.file req.model_id =
        (SubmitResult.failed j e, s2) →
      (postColorize env s req).1.status ≠ 200 ∧
      400 ≤ (postColorize env s req).1.status ∧
      (postColorize env s req).1.body = [("detail", errorDetail e)]) := by
  refine ⟨?_, ?_, ?_⟩
  · intro s2 h
    simp [postColorize, h]
  · intro j s2 h
    simp [postColorize, h]
  · intro j e s2 h
    have hpost : postColorize env s req =
        ({ status := httpStatusOfError e,
           body := [("detail", errorDetail e)] }, s2) := by
      simp [postColorize, h]
    rw [hpost]
    cases e <;> simp [httpStatusOfError]

/-- The request used to exercise the HTTP contract concretely. -/
def demoReq : ColorizeRequest :=
  { file := some [1, 2], user_id := "u1", model_id := none }

theorem http_colorize_contract_witness :
    postColorize demoEnv Store.empty demoReq =
      ({ status := 200,
         body := [("colorized_image", encodeBytes (demoJob.colorized_image.getD [])),
                  ("original_image", encodeBytes demoJob.original_image),
                  ("id", demoJob.id),
                  ("created_at", toString demoJob.created_at)] },
       Store.empty.create demoJob) :=
  (http_colorize_contract demoEnv Store.empty demoReq).2.1 demoJob
    (Store.empty.create demoJob) (by rfl)

/-- C6: deleting an id not present in the store returns 404 with detail
"not found" and leaves the store unchanged; deleting a present id
returns 200 and removes the record, so a subsequent get reports
NotFound. -/
theorem delete_semantics (s : Store) (i : String) :
    (s.getRecord i = none →
      httpDelete s i =
        ({ status := 404, body := [("detail", "not found")] }, s)) ∧
    (∀ j, s.getRecord i = some j →
      (httpDelete s i).1.status = 200 ∧
      ((httpDelete s i).2).getRecord i = none) := by
  constructor
  · intro h
    have hfind : s.records.find? (fun r => r.id == i) = none := h
    have hany : s.records.any (fun r => r.id == i) = false := by
      rw [List.any_eq_false]
      intro r hr
      have hnp := List.find?_eq_none.mp hfind r hr
      simpa using hnp
    simp [httpDelete, Store.deleteRecord, hany]
  · intro j h
    have hfind : s.records.find? (fun r => r.id == i) = some j := h
    have hmem : j ∈ s.records := List.mem_of_find?_eq_some hfind
    have hp : (j.id == i) = true := by
      have hpre := List.find?_some hfind
      simpa using hpre
    have hany : s.records.any (fun r => r.id == i) = true :=
      List.any_eq_true.mpr ⟨j, hmem, hp⟩
    constructor
    · simp [httpDelete, Store.deleteRecord, hany]
    · simp only [httpDelete, Store.deleteRecord, hany, if_pos, Store.getRecord]
      rw [List.find?_eq_none]
      intro r hr
      rw [List.mem_filter] at hr
      simpa using hr.2

theorem delete_semantics_witness :
    (httpDelete demoStore "job-1").1.status = 200 ∧
    ((httpDelete demoStore "job-1").2).getRecord "job-1" = none ∧
    httpDelete Store.empty "job-9" =
      ({ status := 404, body := [("detail", "not found")] }, Store.empty) := by
  refine ⟨?_, ?_, ?_⟩
  · exact ((delete_semantics demoStore "job-1").2 demoJob (by rfl)).1
  · exact ((delete_semantics demoStore "job-1").2 demoJob (by rfl)).2
  · exact (delete_semantics Store.empty "job-9").1 (by rfl)

/-- C7: the Inference Client makes at most two upstream attempts per
submission (one call plus at most one bounded retry), a second attempt
happens only after a transient network timeout, and when the first
attempt reports ModelUnavailable no retry occurs and submit returns a
record with status failed. -/
theorem inference_retry_policy (env : Env) (image : List Nat) (mid : String) :
    (colorize env image mid).2 ≤ 2 ∧
    ((colorize env image mid).2 = 2 →
      env.upstream image mid 0 = UpstreamOutcome.timeout) ∧
    (env.upstream image mid 0 = UpstreamOutcome.modelUnavailable →
      (colorize env image mid).2 = 1 ∧
      ∀ s owner, image ≠ [] →
        ∃ j s2,
          submit env s owner (some image) (some mid) =
            (SubmitResult.failed j InferError.ModelUnavailable, s2) ∧
          j.status = JobStatus.failed) := by
  refine ⟨?_, ?_, ?_⟩
  · rcases h0 : env.upstream image mid 0 with bytes | _ | _ | _
    · simp only [colorize, h0]
      decide
    · simp only [colorize, h0]
      decide
    · rcases h1 : env.upstream image mid 1 with bytes2 | _ | _ | _ <;>
        simp only [colorize, h0, h1] <;> decide
    · simp only [colorize, h0]
      decide
  · intro h2
    rcases h0 : env.upstream image mid 0 with bytes | _ | _ | _
    · simp only [colorize, h0] at h2
      exact absurd h2 (by decide)
    · simp only [colorize, h0] at h2
      exact absurd h2 (by decide)
    · rfl
    · simp only [colorize, h0] at h2
      exact absurd h2 (by decide)
  · intro h0
    constructor
    · simp [colorize, h0]
    · intro s owner himg
      have herr : (colorize env image ((some mid).getD env.defaultModel)).1 =
          Except.error InferError.ModelUnavailable := by
        simp [colorize, h0]
      obtain ⟨j, s2, hsub, hstat, _, _, _, _⟩ :=
        submit_failure_aux env s owner image (some mid)
          InferError.ModelUnavailable himg herr
      exact ⟨j, s2, hsub, hstat⟩

theorem inference_retry_policy_witness :
    (colorize demoEnvDown [3] "m1").2 = 1 ∧
    ∃ j s2,
      submit demoEnvDown Store.empty "u1" (some [3]) (some "m1") =
        (SubmitResult.failed j InferError.ModelUnavailable, s2) ∧
      j.status = JobStatus.failed := by
  have h := (inference_retry_policy demoEnvDown [3] "m1").2.2 (by rfl)
  exact ⟨h.1, h.2 Store.empty "u1" (by decide)⟩

/-- C8: a record returned by a successful submit is retrievable
unchanged via list_by_owner on the resulting store, with no intervening
operations: it is the head of the owner listing (newest first) and a
member of it. -/
theorem submit_listByOwner_roundtrip (env : Env) (s : Store) (owner : String)
    (image : List Nat) (model? : Option String)
    (j : ColorizationJob) (s2 : Store)
    (h : submit env s owner (some image) model? = (SubmitResult.ok j, s2)) :
    (s2.listByOwner owner).head? = some j ∧
    j ∈ s2.listByOwner owner ∧ j.owner_id = owner := by
  cases image with
  | nil => simp [submit] at h
  | cons a l =>
    rcases hcol : (colorize env (a :: l) (model?.getD env.defaultModel)).1 with e | bytes
    · simp only [submit, hcol, Prod.mk.injEq] at h
      exact SubmitResult.noConfusion h.1
    · simp only [submit, hcol, Prod.mk.injEq, SubmitResult.ok.injEq] at h
      obtain ⟨hj, hs2⟩ := h
      subst hj
      subst hs2
      refine ⟨?_, ?_, rfl⟩
      · simp [Store.listByOwner, Store.create, List.filter_cons]
      · simp [Store.listByOwner, Store.create, List.filter_cons]

theorem submit_listByOwner_roundtrip_witness :
    ((Store.empty.create demoJob).listByOwner "u1").head? = some demoJob ∧
    demoJob ∈ (Store.empty.create demoJob).listByOwner "u1" ∧
    demoJob.owner_id = "u1" :=
  submit_listByOwner_roundtrip demoEnv Store.empty "u1" [1, 2] none demoJob
    (Store.empty.create demoJob) (by rfl)

/-- C9: list_by_owner for an owner with no records in the store returns
the empty sequence, not an error and not a missing value. -/
theorem listByOwner_no_records (s : Store) (owner : String)
    (h : ∀ r ∈ s.records, r.owner_id ≠ owner) :
    s.listByOwner owner = [] := by
  simp only [Store.listByOwner]
  rw [List.filter_eq_nil_iff]
  intro r hr
  simpa using h r hr

theorem listByOwner_no_records_witness :
    demoStore.listByOwner "someone-else" = [] :=
  listByOwner_no_records demoStore "someone-else" (by decide)

/-- C10: in the history screen, when the HTTP DELETE succeeds the new
list state is the old list with exactly the items bearing the deleted id
removed and the relative order of the others kept; when the HTTP DELETE
fails the list state is unchanged. -/
theorem deleteItem_list_update (prev : List Colorization) (i : String) :
    ((deleteItemState prev i true).Sublist prev ∧
      (∀ x ∈ deleteItemState prev i true, x.id ≠ i) ∧
      (∀ x ∈ prev, x.id ≠ i → x ∈ deleteItemState prev i true)) ∧
    deleteItemState prev i false = prev := by
  refine ⟨⟨?_, ?_, ?_⟩, rfl⟩
  · simp only [deleteItemState, if_pos]
    exact List.filter_sublist prev
  · intro x hx
    simp only [deleteItemState, if_pos, List.mem_filter] at hx
    simpa using hx.2
  · intro x hx hne
    simp only [deleteItemState, if_pos, List.mem_filter]
    exact ⟨hx, by simpa using hne⟩

/-- A concrete history entry kept by the delete update. -/
def demoKeep : Colorization :=
  { id := "b", original_image := "ob", colorized_image := "cb",
    model_id := "m", created_at := "tb" }

/-- A concrete history entry removed by the delete update. -/
def demoGone : Colorization :=
  { id := "a", original_image := "oa", colorized_image := "ca",
    model_id := "m", created_at := "ta" }

theorem deleteItem_list_update_witness :
    demoKeep ∈ deleteItemState [demoGone, demoKeep] "a" true ∧
    deleteItemState [demoGone, demoKeep] "a" false = [demoGone, demoKeep] := by
  have h := deleteItem_list_update [demoGone, demoKeep] "a"
  exact ⟨h.1.2.2 demoKeep (by decide) (by decide), h.2⟩

end Manga
